import Mathlib

/-
Verification of the chunked replay decoder in ray/reader.py and ray/models.py
(fortnite-replay-reader). The byte buffer is modelled as a `List Nat` of byte
values; the bitstring cursor as an explicit byte position threaded through
every read. All reads in the source are byte-aligned, little-endian. A failed
bitstring read raises ReadError (modelled `Err.truncated`); seeking the cursor
out of range raises ValueError (modelled `Err.valueErr`).
-/

deriving instance DecidableEq for Except

namespace Ray

/-- Errors of the decoder. `truncated` = bitstring ReadError (read past end),
`invalidReplay` = InvalidReplayException, `malformedString` = ReadStringException,
`unsupportedElim` = PlayerEliminationException, `typeErr` = Python TypeError
(subscripting the int 0 returned by Header.version, or attribute access on a
None header), `valueErr` = Python ValueError (bad cursor seek, int of an empty
digit string), `unboundLocal` = Python UnboundLocalError (reading a local
variable that was never assigned), `unicodeErr` = UnicodeDecodeError raised by
an uncaught strict codec, `overflowErr` = OverflowError from int(inf). -/
inductive Err where
  | truncated
  | invalidReplay
  | malformedString
  | unsupportedElim
  | typeErr
  | valueErr
  | unboundLocal
  | unicodeErr
  | overflowErr
  deriving DecidableEq

/-- A decoded Python string, as its list of code points. -/
abbrev PyStr := List Nat

/-- Code points of a Lean string literal, for comparing against the string
constants of the source (event tags, branch names). -/
def strLit (s : String) : PyStr := s.data.map Char.toNat

/-- Python lexicographic string comparison a <= b over code points. -/
def pyStrLe : PyStr → PyStr → Bool
  | [], _ => true
  | _ :: _, [] => false
  | a :: as, b :: bs => if a < b then true else if b < a then false else pyStrLe as bs

/-- ConstBitStream.read of n raw bytes at byte position p: the slice, and the
advanced position; bitstring raises ReadError when fewer than n bytes remain. -/
def readBytesAt (buf : List Nat) (p n : Nat) : Except Err (List Nat × Nat) :=
  if p + n ≤ buf.length then .ok ((buf.drop p).take n, p + n) else .error .truncated

/-- Value of a little-endian byte list. -/
def leVal : List Nat → Nat
  | [] => 0
  | b :: bs => b + 256 * leVal bs

/-- read_uint32: 'uintle:32'. -/
def readU32 (buf : List Nat) (p : Nat) : Except Err (Nat × Nat) :=
  match readBytesAt buf p 4 with
  | .error e => .error e
  | .ok (bs, q) => .ok (leVal bs, q)

/-- read_uint16: 'uintle:16'. -/
def readU16 (buf : List Nat) (p : Nat) : Except Err (Nat × Nat) :=
  match readBytesAt buf p 2 with
  | .error e => .error e
  | .ok (bs, q) => .ok (leVal bs, q)

/-- read_uint64: 'uintle:64'. -/
def readU64 (buf : List Nat) (p : Nat) : Except Err (Nat × Nat) :=
  match readBytesAt buf p 8 with
  | .error e => .error e
  | .ok (bs, q) => .ok (leVal bs, q)

/-- read_int32: 'intle:32', two's complement signed. -/
def readI32 (buf : List Nat) (p : Nat) : Except Err (Int × Nat) :=
  match readBytesAt buf p 4 with
  | .error e => .error e
  | .ok (bs, q) =>
      let n := leVal bs
      .ok (if n < 2 ^ 31 then (n : Int) else (n : Int) - 2 ^ 32, q)

/-- read_byte: one raw byte, interpreted little-endian (read_uint8 reads the
same single byte as 'uint:8'; both yield the byte value). -/
def readByte (buf : List Nat) (p : Nat) : Except Err (Nat × Nat) :=
  match readBytesAt buf p 1 with
  | .error e => .error e
  | .ok (bs, q) => .ok (leVal bs, q)

/-- read_bool: reads a uint32 and compares it to 1. -/
def readBool (buf : List Nat) (p : Nat) : Except Err (Bool × Nat) :=
  match readU32 buf p with
  | .error e => .error e
  | .ok (v, q) => .ok (decide (v = 1), q)

/-- skip(count): bytepos += count; the bitstring position setter raises
ValueError when the new position passes the end of the data. -/
def skipBytes (buf : List Nat) (p n : Nat) : Except Err Nat :=
  if p + n ≤ buf.length then .ok (p + n) else .error .valueErr

/-- hextostring: a byte rendered as two lowercase hex character codes. -/
def hexChars (b : Nat) : List Nat :=
  let lo := b % 16
  let hi := b / 16
  [if hi < 10 then 48 + hi else 87 + hi, if lo < 10 then 48 + lo else 87 + lo]

/-- read_guid: 16 raw bytes, each rendered as two hex characters, concatenated
in stream order. -/
def readGuid (buf : List Nat) (p : Nat) : Except Err (PyStr × Nat) :=
  match readBytesAt buf p 16 with
  | .error e => .error e
  | .ok (bs, q) => .ok ((bs.map hexChars).flatten, q)

/-- A UTF-8 continuation byte 0x80..0xBF. -/
def utf8Cont (b : Nat) : Bool := 128 ≤ b && b ≤ 191

/-- Strict UTF-8 decoding to code points (CPython 'utf-8' codec: overlong
encodings and surrogates rejected); `none` models UnicodeDecodeError. -/
def decodeUtf8 : List Nat → Option (List Nat)
  | [] => some []
  | b1 :: r1 =>
    if b1 < 128 then
      match decodeUtf8 r1 with
      | some t => some (b1 :: t)
      | none => none
    else if 194 ≤ b1 && b1 ≤ 223 then
      match r1 with
      | b2 :: r2 =>
        if utf8Cont b2 then
          match decodeUtf8 r2 with
          | some t => some (((b1 - 192) * 64 + (b2 - 128)) :: t)
          | none => none
        else none
      | _ => none
    else if 224 ≤ b1 && b1 ≤ 239 then
      match r1 with
      | b2 :: b3 :: r3 =>
        let okB2 : Bool :=
          if b1 = 224 then 160 ≤ b2 && b2 ≤ 191
          else if b1 = 237 then 128 ≤ b2 && b2 ≤ 159
          else utf8Cont b2
        if okB2 && utf8Cont b3 then
          match decodeUtf8 r3 with
          | some t => some (((b1 - 224) * 4096 + (b2 - 128) * 64 + (b3 - 128)) :: t)
          | none => none
        else none
      | _ => none
    else if 240 ≤ b1 && b1 ≤ 244 then
      match r1 with
      | b2 :: b3 :: b4 :: r4 =>
        let okB2 : Bool :=
          if b1 = 240 then 144 ≤ b2 && b2 ≤ 191
          else if b1 = 244 then 128 ≤ b2 && b2 ≤ 143
          else utf8Cont b2
        if okB2 && utf8Cont b3 && utf8Cont b4 then
          match decodeUtf8 r4 with
          | some t =>
            some (((b1 - 240) * 262144 + (b2 - 128) * 4096 + (b3 - 128) * 64 + (b4 - 128)) :: t)
          | none => none
        else none
      | _ => none
    else none

/-- The 'utf-8'-with-latin-1-fallback decode of read_string's positive branch:
latin-1 maps each byte to the same code point and accepts anything, so this
total function never fails. -/
def pyUtf8OrLatin1 (bs : List Nat) : PyStr :=
  match decodeUtf8 bs with
  | some s => s
  | none => bs

/-- UTF-16 code units from bytes, little-endian; odd byte counts are a decode
error (CPython: truncated data). -/
def utf16leUnits : List Nat → Option (List Nat)
  | [] => some []
  | lo :: hi :: rest =>
    match utf16leUnits rest with
    | some t => some ((lo + 256 * hi) :: t)
    | none => none
  | _ :: [] => none

/-- UTF-16 code units from bytes, big-endian. -/
def utf16beUnits : List Nat → Option (List Nat)
  | [] => some []
  | hi :: lo :: rest =>
    match utf16beUnits rest with
    | some t => some ((lo + 256 * hi) :: t)
    | none => none
  | _ :: [] => none

/-- Combine surrogate pairs into scalar values; lone surrogates are a decode
error (strict codec). -/
def utf16Combine : List Nat → Option (List Nat)
  | [] => some []
  | u :: rest =>
    if u < 55296 || 57344 ≤ u then
      match utf16Combine rest with
      | some t => some (u :: t)
      | none => none
    else if u ≤ 56319 then
      match rest with
      | v :: rest2 =>
        if 56320 ≤ v && v ≤ 57343 then
          match utf16Combine rest2 with
          | some t => some ((65536 + (u - 55296) * 1024 + (v - 56320)) :: t)
          | none => none
        else none
      | [] => none
    else none

/-- CPython bytes.decode('utf-16'): a leading byte-order mark selects the byte
order and is stripped; without one the platform (little-endian) order is used.
This is the codec read_string applies to negative-length strings. -/
def pyUtf16Decode (bs : List Nat) : Option PyStr :=
  match bs with
  | 255 :: 254 :: rest =>
    match utf16leUnits rest with
    | some us => utf16Combine us
    | none => none
  | 254 :: 255 :: rest =>
    match utf16beUnits rest with
    | some us => utf16Combine us
    | none => none
  | _ =>
    match utf16leUnits bs with
    | some us => utf16Combine us
    | none => none

/-- Modelled from the spec's words ("decodes UTF-16LE"): plain little-endian
UTF-16 with no byte-order-mark handling, for comparison with the codec the
source actually applies (`pyUtf16Decode`). -/
def specUtf16leDecode (bs : List Nat) : Option PyStr :=
  match utf16leUnits bs with
  | some us => utf16Combine us
  | none => none

/-- read_string (ConstBitStreamWrapper): signed 32-bit length prefix n;
n = 0 → empty; n < 0 → size *= -2 bytes read, bytes[:-2] decoded 'utf-16';
n > 0 → n bytes read, string = bytes[:-1], raise ReadStringException if the
last byte is nonzero, else decode utf-8 falling back to latin-1. -/
def readString (buf : List Nat) (p : Nat) : Except Err (PyStr × Nat) :=
  match readI32 buf p with
  | .error e => .error e
  | .ok (size, p1) =>
    if size = 0 then .ok ([], p1)
    else if size < 0 then
      let n := (-2 * size).toNat
      match readBytesAt buf p1 n with
      | .error e => .error e
      | .ok (bs, p2) =>
        match pyUtf16Decode (bs.take (n - 2)) with
        | some s => .ok (s, p2)
        | none => .error .unicodeErr
    else
      let n := size.toNat
      match readBytesAt buf p1 n with
      | .error e => .error e
      | .ok (bs, p2) =>
        if bs.getLastD 1 ≠ 0 then .error .malformedString
        else .ok (pyUtf8OrLatin1 (bs.take (n - 1)), p2)

/-- A Python float (the value bitstring's 'floatle:32' read yields): every
finite float32 is the exact dyadic rational num * 2 ^ exp, and converting it
to the Python float64 is exact. -/
inductive PyFloat where
  | finite (num : Int) (exp : Int)
  | inf
  | ninf
  | nan
  deriving DecidableEq

/-- Exact value of a 4-byte little-endian IEEE-754 binary32: sign bit,
8 exponent bits, 23 fraction bits; exponent 255 is an infinity or NaN,
exponent 0 subnormal. -/
def decodeF32 (bs : List Nat) : PyFloat :=
  let bits : Nat := leVal bs
  let sign : Nat := bits / 2 ^ 31 % 2
  let expo : Nat := bits / 2 ^ 23 % 256
  let frac : Nat := bits % 2 ^ 23
  let sgn : Int := if sign = 1 then -1 else 1
  if expo = 255 then
    if frac = 0 then (if sign = 1 then .ninf else .inf) else .nan
  else if expo = 0 then .finite (sgn * frac) (-149)
  else .finite (sgn * (2 ^ 23 + frac)) ((expo : Int) - 150)

/-- read_float32: 'floatle:32'. -/
def readF32 (buf : List Nat) (p : Nat) : Except Err (PyFloat × Nat) :=
  match readBytesAt buf p 4 with
  | .error e => .error e
  | .ok (bs, q) => .ok (decodeF32 bs, q)

/-- Truncation toward zero of n / 2 ^ k (Python int() applied to an exact
dyadic value; computed on Nat so no integer-division convention is involved). -/
def truncShift (n : Int) (k : Nat) : Int :=
  if n < 0 then -(((-n).toNat / 2 ^ k : Nat) : Int) else ((n.toNat / 2 ^ k : Nat) : Int)

/-- int(accuracy * 100): the float64 product 100 * v is exact for every finite
float32 v (significand below 2^31 < 2^53), so the stored value is the exact
truncation toward zero of 100 * num * 2 ^ exp; int() of an infinity raises
OverflowError, of NaN ValueError. -/
def pyIntTimes100 : PyFloat → Except Err Int
  | .finite n e =>
    if 0 ≤ e then .ok (100 * n * 2 ^ e.toNat) else .ok (truncShift (100 * n) (-e).toNat)
  | .inf => .error .overflowErr
  | .ninf => .error .overflowErr
  | .nan => .error .valueErr

/-- round(total_traveled / 100000.0) for a uint32 input: Python's round halves
to even. The float64 quotient differs from the exact rational by at most
2 ^ (-36) while the exact rational is never within 10 ^ (-5) of a rounding
boundary without lying exactly on one (boundaries k + 1/2 are float64-exact
here), so half-even rounding of the exact rational equals the float64 result
for every uint32 input. -/
def pyRoundDiv100000 (t : Nat) : Int :=
  let q := t / 100000
  let r := t % 100000
  if r * 2 < 100000 then (q : Int)
  else if 100000 < r * 2 then (q : Int) + 1
  else if q % 2 = 0 then (q : Int) else (q : Int) + 1

/-- Replay history constants (models.HistoryTypes). -/
def HISTORY_COMPRESSION : Nat := 2

def HISTORY_RECORDED_TIMESTAMP : Nat := 3

def HISTORY_ENCRYPTION : Nat := 6

/-- Header history constant (models.HeaderTypes.HISTORY_HEADER_GUID). -/
def HISTORY_HEADER_GUID : Nat := 12

def FILE_MAGIC : Nat := 0x1CA2E27F

def NETWORK_MAGIC : Nat := 0x2CF5A13D

/-- models.Meta. time_stamp and is_compressed keep the values the parser
assigned; the parser can only construct the record when both were assigned
(see parseMeta). -/
structure Meta where
  file_version : Nat
  lenght_in_ms : Nat
  network_version : Nat
  change_list : Nat
  friendly_name : PyStr
  is_live : Bool
  time_stamp : Nat
  is_compressed : Bool
  is_encrypted : Bool
  encryption_key : List Nat
  deriving DecidableEq

/-- Reading a Python local that is only conditionally assigned: referencing it
unassigned raises UnboundLocalError. -/
def localGet : Option α → Except Err α
  | some a => .ok a
  | none => .error .unboundLocal

/-- The two structural-invariant checks of Reader.parse_meta (lines 185-193),
in source order: a completed replay flagged encrypted with an empty key, then
a live replay flagged encrypted; both raise InvalidReplayException. -/
def metaInvariantChecks (is_live is_encrypted : Bool) (encryption_key : List Nat) :
    Except Err Unit :=
  if is_live = false ∧ is_encrypted = true ∧ encryption_key.length = 0 then
    .error .invalidReplay
  else if is_live = true ∧ is_encrypted = true then .error .invalidReplay
  else .ok ()

/-- Reader.parse_meta. The timestamp and compression locals are assigned only
under their version gates but referenced unconditionally when the Meta record
is constructed (arguments evaluated in source order: time_stamp first). -/
def parseMeta (buf : List Nat) (p : Nat) : Except Err (Meta × Nat) := do
  let (magic, p) ← readU32 buf p
  if magic ≠ FILE_MAGIC then .error .invalidReplay else
  let (file_version, p) ← readU32 buf p
  let (lenght_in_ms, p) ← readU32 buf p
  let (network_version, p) ← readU32 buf p
  let (change_list, p) ← readU32 buf p
  let (friendly_name, p) ← readString buf p
  let (is_live, p) ← readBool buf p
  let (tsOpt, p) ←
    if HISTORY_RECORDED_TIMESTAMP ≤ file_version then do
      let (ts, p) ← readU64 buf p
      pure (some ts, p)
    else pure ((none : Option Nat), p)
  let (icOpt, p) ←
    if HISTORY_COMPRESSION ≤ file_version then do
      let (ic, p) ← readBool buf p
      pure (some ic, p)
    else pure ((none : Option Bool), p)
  let (is_encrypted, encryption_key, p) ←
    if HISTORY_ENCRYPTION ≤ file_version then do
      let (ie, p) ← readBool buf p
      let (ksz, p) ← readU32 buf p
      let (key, p) ← readBytesAt buf p ksz
      pure (ie, key, p)
    else pure (false, ([] : List Nat), p)
  let _ ← metaInvariantChecks is_live is_encrypted encryption_key
  let time_stamp ← localGet tsOpt
  let is_compressed ← localGet icOpt
  .ok ({ file_version := file_version, lenght_in_ms := lenght_in_ms,
         network_version := network_version, change_list := change_list,
         friendly_name := friendly_name, is_live := is_live,
         time_stamp := time_stamp, is_compressed := is_compressed,
         is_encrypted := is_encrypted, encryption_key := encryption_key }, p)

/-- models.Header (the record fields; the derived version is modelled by
`versionProp` below). -/
structure Header where
  network_version : Nat
  network_checksum : Nat
  engine_network_version : Nat
  game_network_protocol : Nat
  guid : PyStr
  major : Nat
  minor : Nat
  patch : Nat
  changelist : Nat
  branch : PyStr
  levelnames_and_times : List (PyStr × Nat)
  flags : Nat
  game_specific_data : List PyStr
  deriving DecidableEq

def isDigitCode (c : Nat) : Bool := 48 ≤ c && c ≤ 57

/-- Numeric value of a digit-character list (Python int on a digit string). -/
def digitsVal (ds : List Nat) : Nat := ds.foldl (fun a c => a * 10 + (c - 48)) 0

/-- The literal part of Header.version_regex. -/
def releaseLit : PyStr := strLit ("++Fortnite+Release-")

/-- Match Header.version_regex at the head of l: the literal, one or more
digits (major), a dot, zero or more digits (minor); greedy digit runs, which
for this pattern backtracking cannot improve. Yields the two digit runs. -/
def tryVersionAt (l : List Nat) : Option (List Nat × List Nat) :=
  if releaseLit.isPrefixOf l then
    let rest := l.drop releaseLit.length
    let ds := rest.takeWhile isDigitCode
    let rest2 := rest.dropWhile isDigitCode
    if ds.isEmpty then none
    else
      match rest2 with
      | 46 :: rest3 => some (ds, rest3.takeWhile isDigitCode)
      | _ => none
  else none

/-- re.search: the leftmost match of the version pattern in the branch. -/
def versionSearch : List Nat → Option (List Nat × List Nat)
  | [] => none
  | c :: rest =>
    match tryVersionAt (c :: rest) with
    | some r => some r
    | none => versionSearch rest

/-- The Header.version property. The class attribute _version is an empty
defaultdict shared by every Header (truthiness false); an instance attribute
set on first successful match shadows it. The modelled dict is `some (major,
minor)` when non-empty. On a match the comprehension computes int(major) then
int(minor) - int of the empty minor run raises ValueError before any caching.
With no match the property returns the int 0 (modelled `none` in the value),
on which a ['major'] subscript raises TypeError (`dictGetMajor`). Returns the
property's value and the new instance attribute. -/
def versionProp (classV instV : Option (Nat × Nat)) (branch : PyStr) :
    Except Err (Option (Nat × Nat) × Option (Nat × Nat)) :=
  let cur := match instV with
    | some d => some d
    | none => classV
  match cur with
  | some d => .ok (some d, instV)
  | none =>
    match versionSearch branch with
    | some (maj, minr) =>
      if minr.isEmpty then .error .valueErr
      else .ok (some (digitsVal maj, digitsVal minr), some (digitsVal maj, digitsVal minr))
    | none => .ok (none, instV)

/-- Subscripting the version property's value with ['major']: a dict yields
its entry, the int 0 raises TypeError. -/
def dictGetMajor : Option (Nat × Nat) → Except Err Nat
  | some d => .ok d.1
  | none => .error .typeErr

/-- Read count elements with an element reader (body of read_array). -/
def readN (k : Nat) (rd : List Nat → Nat → Except Err (α × Nat)) (buf : List Nat)
    (p : Nat) : Except Err (List α × Nat) :=
  match k with
  | 0 => .ok ([], p)
  | k + 1 => do
    let (a, p) ← rd buf p
    let (as, p) ← readN k rd buf p
    .ok (a :: as, p)

/-- Read count pairs (body of read_tuple_array). -/
def readPairsN (k : Nat) (rd1 : List Nat → Nat → Except Err (α × Nat))
    (rd2 : List Nat → Nat → Except Err (β × Nat)) (buf : List Nat) (p : Nat) :
    Except Err (List (α × β) × Nat) :=
  match k with
  | 0 => .ok ([], p)
  | k + 1 => do
    let (a, p) ← rd1 buf p
    let (b, p) ← rd2 buf p
    let (rest, p) ← readPairsN k rd1 rd2 buf p
    .ok ((a, b) :: rest, p)

/-- read_array: uint32 length prefix, then that many elements. -/
def readArray (rd : List Nat → Nat → Except Err (α × Nat)) (buf : List Nat)
    (p : Nat) : Except Err (List α × Nat) := do
  let (n, p) ← readU32 buf p
  readN n rd buf p

/-- read_tuple_array: uint32 length prefix, then that many pairs. -/
def readTupleArray (rd1 : List Nat → Nat → Except Err (α × Nat))
    (rd2 : List Nat → Nat → Except Err (β × Nat)) (buf : List Nat) (p : Nat) :
    Except Err (List (α × β) × Nat) := do
  let (n, p) ← readU32 buf p
  readPairsN n rd1 rd2 buf p

/-- Reader.parse_header (its size argument is unused by the source). The guid
is read only when network_version strictly exceeds HISTORY_HEADER_GUID. -/
def parseHeader (buf : List Nat) (p : Nat) : Except Err (Header × Nat) := do
  let (magic, p) ← readU32 buf p
  if magic ≠ NETWORK_MAGIC then .error .invalidReplay else
  let (network_version, p) ← readU32 buf p
  let (network_checksum, p) ← readU32 buf p
  let (engine_network_version, p) ← readU32 buf p
  let (game_network_protocol, p) ← readU32 buf p
  let (guid, p) ←
    if HISTORY_HEADER_GUID < network_version then readGuid buf p
    else pure (([] : PyStr), p)
  let (major, p) ← readU16 buf p
  let (minor, p) ← readU16 buf p
  let (patch, p) ← readU16 buf p
  let (changelist, p) ← readU32 buf p
  let (branch, p) ← readString buf p
  let (levelnames_and_times, p) ← readTupleArray readString readU32 buf p
  let (flags, p) ← readU32 buf p
  let (game_specific_data, p) ← readArray readString buf p
  .ok ({ network_version := network_version, network_checksum := network_checksum,
         engine_network_version := engine_network_version,
         game_network_protocol := game_network_protocol, guid := guid,
         major := major, minor := minor, patch := patch, changelist := changelist,
         branch := branch, levelnames_and_times := levelnames_and_times,
         flags := flags, game_specific_data := game_specific_data }, p)

/-- models.PlayerId. -/
structure PlayerId where
  name : PyStr
  guid : PyStr
  is_player : Bool
  deriving DecidableEq

/-- models.Elimination. time holds the start_time milliseconds the event
carried (the source stores datetime.fromtimestamp(time / 1000.0), a pure
function of it); knocked holds the uint32 the source assigns to the field. -/
structure Elimination where
  eliminated : PlayerId
  eliminator : PlayerId
  gun_type : Nat
  time : Nat
  knocked : Nat
  deriving DecidableEq

/-- models.Stats; accuracy and total_traveled store the transformed values. -/
structure Stats where
  unknown : Nat
  accuracy : Int
  assists : Nat
  eliminations : Nat
  weapon_damage : Nat
  other_damage : Nat
  revives : Nat
  damage_taken : Nat
  damage_structures : Nat
  materials_gathered : Nat
  materials_used : Nat
  total_traveled : Int
  deriving DecidableEq

/-- models.TeamStats. -/
structure TeamStats where
  unknown : Nat
  position : Nat
  total_players : Nat
  deriving DecidableEq

/-- Reader.read_player: a structured player record (0x03 nameless bot, 0x10
named bot, otherwise a one-byte size skip and a GUID of a real player). -/
def readPlayer (buf : List Nat) (p : Nat) : Except Err (PlayerId × Nat) := do
  let (ty, p) ← readByte buf p
  if ty = 3 then .ok ({ name := strLit ("Bot"), guid := [], is_player := false }, p)
  else if ty = 16 then do
    let (nm, p) ← readString buf p
    .ok ({ name := nm, guid := [], is_player := false }, p)
  else do
    let p ← skipBytes buf p 1
    let (g, p) ← readGuid buf p
    .ok ({ name := [], guid := g, is_player := true }, p)

/-- Tail of parse_elimination_event shared by both branches: gun_type byte,
knocked uint32, then the Elimination record. parse_elimination_event's result
triple is (outcome, instance _version attribute, payload cursor): the cursor
and the cached attribute survive even when the decode raises, because the
caller catches the exception and may keep reading the same payload buffer. -/
def elimFinish (instV : Option (Nat × Nat)) (eliminated eliminator : PlayerId)
    (payload : List Nat) (p : Nat) (time : Nat) :
    Except Err Elimination × Option (Nat × Nat) × Nat :=
  match readByte payload p with
  | .error e => (.error e, instV, p)
  | .ok (g, p1) =>
    match readU32 payload p1 with
    | .error e => (.error e, instV, p1)
    | .ok (k, p2) =>
      (.ok { eliminated := eliminated, eliminator := eliminator, gun_type := g,
             time := time, knocked := k }, instV, p2)

/-- The else-branch of parse_elimination_event: a branch-string-selected skip,
then both players as bare strings wrapped as real-player identities. -/
def elimStringsPath (instV : Option (Nat × Nat)) (skipN : Nat) (payload : List Nat)
    (p : Nat) (time : Nat) : Except Err Elimination × Option (Nat × Nat) × Nat :=
  match skipBytes payload p skipN with
  | .error e => (.error e, instV, p)
  | .ok p1 =>
    match readString payload p1 with
    | .error e => (.error e, instV, p1)
    | .ok (s1, p2) =>
      match readString payload p2 with
      | .error e => (.error e, instV, p2)
      | .ok (s2, p3) =>
        elimFinish instV { name := [], guid := s1, is_player := true }
          { name := [], guid := s2, is_player := true } payload p3 time

/-- The first branch of parse_elimination_event: an 85-byte skip, then both
players as structured records. -/
def elimStructuredPath (instV : Option (Nat × Nat)) (payload : List Nat) (p : Nat)
    (time : Nat) : Except Err Elimination × Option (Nat × Nat) × Nat :=
  match skipBytes payload p 85 with
  | .error e => (.error e, instV, p)
  | .ok p1 =>
    match readPlayer payload p1 with
    | .error e => (.error e, instV, p1)
    | .ok (eliminated, p2) =>
      match readPlayer payload p2 with
      | .error e => (.error e, instV, p2)
      | .ok (eliminator, p3) => elimFinish instV eliminated eliminator payload p3 time

/-- The skip width the elif chain of parse_elimination_event selects from the
branch string, in source order; an unmatched branch raises
PlayerEliminationException. -/
def elimSkipWidth (branch : PyStr) : Except Err Nat :=
  if branch = strLit ("++Fortnite+Release-4.0") then .ok 12
  else if branch = strLit ("++Fortnite+Release-4.2") then .ok 40
  else if pyStrLe (strLit ("++Fortnite+Release-4.3")) branch then .ok 45
  else if branch = strLit ("++Fortnite+Main") then .ok 45
  else .error .unsupportedElim

/-- Reader.parse_elimination_event. self.header may be None (AttributeError,
modelled typeErr). The gate is `engine_network_version >= 11 and
self.header.version['major'] >= 9`, short-circuit: the version property (and
its possible TypeError/ValueError) is only evaluated when the first conjunct
holds. -/
def parseElim (classV : Option (Nat × Nat)) (header : Option Header)
    (instV : Option (Nat × Nat)) (payload : List Nat) (p : Nat) (time : Nat) :
    Except Err Elimination × Option (Nat × Nat) × Nat :=
  match header with
  | none => (.error .typeErr, instV, p)
  | some h =>
    let gate : Except Err (Bool × Option (Nat × Nat)) :=
      if h.engine_network_version < 11 then .ok (false, instV)
      else
        match versionProp classV instV h.branch with
        | .error e => .error e
        | .ok (v, instV1) =>
          match dictGetMajor v with
          | .error e => .error e
          | .ok maj => .ok (decide (9 ≤ maj), instV1)
    match gate with
    | .error e => (.error e, instV, p)
    | .ok (true, instV1) => elimStructuredPath instV1 payload p time
    | .ok (false, instV1) =>
      match elimSkipWidth h.branch with
      | .error e => (.error e, instV1, p)
      | .ok w => elimStringsPath instV1 w payload p time

/-- Reader.parse_matchstats_event: 12 fixed fields in order; the accuracy and
distance transforms are applied when the Stats record is constructed. -/
def parseMatchStats (buf : List Nat) (p : Nat) : Except Err (Stats × Nat) := do
  let (unknown, p) ← readU32 buf p
  let (accuracy, p) ← readF32 buf p
  let (assists, p) ← readU32 buf p
  let (eliminations, p) ← readU32 buf p
  let (weapon_damage, p) ← readU32 buf p
  let (other_damage, p) ← readU32 buf p
  let (revives, p) ← readU32 buf p
  let (damage_taken, p) ← readU32 buf p
  let (damage_structures, p) ← readU32 buf p
  let (materials_gathered, p) ← readU32 buf p
  let (materials_used, p) ← readU32 buf p
  let (total_traveled, p) ← readU32 buf p
  let acc ← pyIntTimes100 accuracy
  .ok ({ unknown := unknown, accuracy := acc, assists := assists,
         eliminations := eliminations, weapon_damage := weapon_damage,
         other_damage := other_damage, revives := revives,
         damage_taken := damage_taken, damage_structures := damage_structures,
         materials_gathered := materials_gathered, materials_used := materials_used,
         total_traveled := pyRoundDiv100000 total_traveled }, p)

/-- Reader.parse_teamstats_event: 3 fixed uint32 fields. -/
def parseTeamStats (buf : List Nat) (p : Nat) : Except Err (TeamStats × Nat) := do
  let (unknown, p) ← readU32 buf p
  let (position, p) ← readU32 buf p
  let (total_players, p) ← readU32 buf p
  .ok ({ unknown := unknown, position := position, total_players := total_players }, p)

/-- The decode-session state the Reader object carries across chunks: the meta
record, the header once parsed, the header instance's cached _version
attribute, and the accumulated results. -/
structure Session where
  meta : Meta
  header : Option Header
  versionCache : Option (Nat × Nat)
  eliminations : List Elimination
  stats : Option Stats
  team_stats : Option TeamStats
  deriving DecidableEq

/-- Reader.decrypt_buffer: read size bytes from the stream; pass them through
verbatim when the meta record is not flagged encrypted, otherwise hand them to
the block cipher. AES-ECB itself is irrelevant to every claim and is passed in
as an arbitrary function from key and ciphertext to plaintext. -/
def decryptBuffer (aes : List Nat → List Nat → List Nat) (meta : Meta)
    (buf : List Nat) (p : Nat) (size : Nat) : Except Err (List Nat × Nat) := do
  let (bs, p) ← readBytesAt buf p size
  if meta.is_encrypted then .ok (aes meta.encryption_key bs, p)
  else .ok (bs, p)

/-- Reader.parse_event: the envelope (three strings, three uint32s), the
payload via decrypt_buffer, then three independent branches sharing the
payload buffer and its cursor. The elimination branch is wrapped in a bare
except that swallows and logs any error (the cursor and version cache keep
the values they reached); the two statistics branches are not wrapped, so
their errors propagate. -/
def parseEvent (aes : List Nat → List Nat → List Nat) (classV : Option (Nat × Nat))
    (s : Session) (buf : List Nat) (p : Nat) : Except Err (Session × Nat) := do
  let (_event_id, p) ← readString buf p
  let (group, p) ← readString buf p
  let (metadata, p) ← readString buf p
  let (start_time, p) ← readU32 buf p
  let (_end_time, p) ← readU32 buf p
  let (size, p) ← readU32 buf p
  let (payload, p) ← decryptBuffer aes s.meta buf p size
  let (s1, bp) :=
    if group = strLit ("playerElim") then
      match parseElim classV s.header s.versionCache payload 0 start_time with
      | (.ok e, iv, bp) =>
        ({ s with versionCache := iv, eliminations := s.eliminations ++ [e] }, bp)
      | (.error _, iv, bp) => ({ s with versionCache := iv }, bp)
    else (s, 0)
  let (s2, bp) ←
    if metadata = strLit ("AthenaMatchStats") then do
      let (st, bp1) ← parseMatchStats payload bp
      pure ({ s1 with stats := some st }, bp1)
    else pure (s1, bp)
  let (s3, _bp) ←
    if metadata = strLit ("AthenaMatchTeamStats") then do
      let (ts, bp1) ← parseTeamStats payload bp
      pure ({ s2 with team_stats := some ts }, bp1)
    else pure (s2, bp)
  .ok (s3, p)

/-- The loop state of Reader.parse_chunks: the session and the stream cursor. -/
structure LoopState where
  sess : Session
  pos : Nat
  deriving DecidableEq

/-- One iteration's outcome: the loop condition failed (done), the iteration
completed and the loop continues, or an exception propagated. -/
inductive StepRes where
  | done (st : LoopState)
  | cont (st : LoopState)
  | fail (e : Err)
  deriving DecidableEq

/-- The dispatch of one parse_chunks iteration, in source order: CHECKPOINT
and REPLAYDATA are no-op placeholders, EVENT and HEADER run their parsers
(whatever cursor position those reach is irrelevant, parse_chunks reseeks
afterwards), and any other chunk type falls through every elif doing
nothing. -/
def dispatchChunk (aes : List Nat → List Nat → List Nat)
    (classV : Option (Nat × Nat)) (sess : Session) (buf : List Nat)
    (chunk_type offset : Nat) : Except Err Session :=
  if chunk_type = 2 then .ok sess
  else if chunk_type = 3 then
    match parseEvent aes classV sess buf offset with
    | .error e => .error e
    | .ok (s, _) => .ok s
  else if chunk_type = 1 then .ok sess
  else if chunk_type = 0 then
    match parseHeader buf offset with
    | .error e => .error e
    | .ok (h, _) => .ok { sess with header := some h }
  else .ok sess

/-- One iteration of Reader.parse_chunks: while pos < len, read chunk type
(uint32) and chunk size (int32), dispatch, then unconditionally assign
bytepos = offset + chunk_size; the bitstring position setter raises ValueError
when that target is negative or past the end of the data. -/
def chunkStep (aes : List Nat → List Nat → List Nat) (classV : Option (Nat × Nat))
    (buf : List Nat) (st : LoopState) : StepRes :=
  if buf.length ≤ st.pos then .done st
  else
    match readU32 buf st.pos with
    | .error e => .fail e
    | .ok (chunk_type, p1) =>
      match readI32 buf p1 with
      | .error e => .fail e
      | .ok (chunk_size, offset) =>
        match dispatchChunk aes classV st.sess buf chunk_type offset with
        | .error e => .fail e
        | .ok sess1 =>
          let np : Int := (offset : Int) + chunk_size
          if np < 0 ∨ (buf.length : Int) < np then .fail .valueErr
          else .cont { sess := sess1, pos := np.toNat }

/-- Reader.parse_chunks as a fuelled loop; `none` means the fuel ran out while
the Python loop was still running. A successful exit carries the session and
the final cursor. -/
def parseChunksLoop (aes : List Nat → List Nat → List Nat)
    (classV : Option (Nat × Nat)) (buf : List Nat) :
    Nat → LoopState → Option (Except Err (Session × Nat))
  | 0, _ => none
  | fuel + 1, st =>
    match chunkStep aes classV buf st with
    | .done s => some (.ok (s.sess, s.pos))
    | .fail e => some (.error e)
    | .cont st1 => parseChunksLoop aes classV buf fuel st1

/-- The chunk-size field of a candidate chunk header at byte offset p. -/
def chunkSizeAt (buf : List Nat) (p : Nat) : Option Int :=
  match readI32 buf (p + 4) with
  | .ok (sz, _) => some sz
  | .error _ => none

/-- The cursor chain p -> p + 8 + size(p) that parse_chunks follows is a pure
function of the buffer (every dispatch outcome leads to the same reseek, and
any exception ends the loop). This decides whether the chain reaches a stop -
end of buffer, an unreadable chunk header, or an out-of-range reseek target -
within the given number of hops. -/
def chainTerminates (buf : List Nat) : Nat → Nat → Bool
  | fuel, p =>
    if buf.length ≤ p then true
    else
      match readU32 buf p with
      | .error _ => true
      | .ok (_, p1) =>
        match readI32 buf p1 with
        | .error _ => true
        | .ok (sz, offset) =>
          let np : Int := (offset : Int) + sz
          if np < 0 ∨ (buf.length : Int) < np then true
          else
            match fuel with
            | 0 => false
            | fuel + 1 => chainTerminates buf fuel np.toNat

/-- A fresh Reader session right after parse_meta. -/
def initSession (m : Meta) : Session :=
  { meta := m, header := none, versionCache := none, eliminations := [],
    stats := none, team_stats := none }

/-- One decode session (Reader.__enter__ body after buffer acquisition):
parse_meta from position 0, then parse_chunks. The session is handed the
class-level Header._version attribute and returns it for the next session:
no statement in the source ever assigns the class attribute (the version
property and its setter assign only instance attributes), so it comes back
unchanged. -/
def decodeSessionSt (aes : List Nat → List Nat → List Nat)
    (classV : Option (Nat × Nat)) (fuel : Nat) (buf : List Nat) :
    Option (Except Err (Session × Nat)) × Option (Nat × Nat) :=
  (match parseMeta buf 0 with
   | .error e => some (.error e)
   | .ok (m, p) => parseChunksLoop aes classV buf fuel { sess := initSession m, pos := p },
   classV)

/-- A process decoding several replays in sequence: the class-level _version
defaultdict starts empty (models.Header line 140) and is threaded from one
session to the next. -/
def runSessions (aes : List Nat → List Nat → List Nat) (fuel : Nat) :
    List (List Nat) → Option (Nat × Nat) → List (Option (Except Err (Session × Nat)))
  | [], _ => []
  | b :: bs, cv =>
    let r := decodeSessionSt aes cv fuel b
    r.1 :: runSessions aes fuel bs r.2

/-- The identity stand-in for the cipher, used to instantiate witnesses. -/
def idAes : List Nat → List Nat → List Nat := fun _ b => b

/-! Concrete fixtures for witnesses and counterexamples. -/

/-- Little-endian 4-byte encoding of a uint32. -/
def u32le (n : Nat) : List Nat := [n % 256, n / 256 % 256, n / 65536 % 256, n / 16777216 % 256]

/-- Length-prefixed, null-terminated encoding of an ASCII string, the form
read_string's positive branch decodes. -/
def strEnc (s : String) : List Nat := u32le (s.length + 1) ++ strLit s ++ [0]

/-- A header record fixing only the fields parse_elimination_event consults. -/
def mkHdr (env : Nat) (br : String) : Header :=
  { network_version := 0, network_checksum := 0, engine_network_version := env,
    game_network_protocol := 0, guid := [], major := 0, minor := 0, patch := 0,
    changelist := 0, branch := strLit br, levelnames_and_times := [], flags := 0,
    game_specific_data := [] }

/-- A plain completed, unencrypted meta record. -/
def mA : Meta :=
  { file_version := 6, lenght_in_ms := 0, network_version := 0,
    change_list := 0, friendly_name := [], is_live := false, time_stamp := 0,
    is_compressed := false, is_encrypted := false, encryption_key := [] }

/-- An elimination payload for the bare-strings branch: w skipped bytes, two
empty strings, gun byte 7, knocked 1. -/
def elimPayloadW (w : Nat) : List Nat :=
  List.replicate w 0 ++ strEnc ("") ++ strEnc ("") ++ [7] ++ u32le 1

/-- An elimination payload for the structured branch: 85 skipped bytes, two
nameless-bot discriminants, gun byte 7, knocked 1. -/
def elimPayload85 : List Nat := List.replicate 85 0 ++ [3, 3, 7] ++ u32le 1

/-- The elimination record those payloads decode to (players as bare empty
strings). -/
def elimResW (t : Nat) : Elimination :=
  { eliminated := { name := [], guid := [], is_player := true },
    eliminator := { name := [], guid := [], is_player := true },
    gun_type := 7, time := t, knocked := 1 }

/-- The elimination record of the structured payload (two nameless bots). -/
def elimRes85 : Elimination :=
  { eliminated := { name := strLit ("Bot"), guid := [], is_player := false },
    eliminator := { name := strLit ("Bot"), guid := [], is_player := false },
    gun_type := 7, time := 0, knocked := 1 }

/-- A meta record prefix: magic, file version v, three zero uint32s, empty
name, live flag l. -/
def metaPrefix (v l : Nat) : List Nat :=
  u32le FILE_MAGIC ++ u32le v ++ u32le 0 ++ u32le 0 ++ u32le 0 ++ u32le 0 ++ u32le l

/-- Version-6 meta buffer, completed, encrypted, zero-length key. -/
def metaBufEncNoKey : List Nat :=
  metaPrefix 6 0 ++ List.replicate 8 0 ++ u32le 0 ++ u32le 1 ++ u32le 0

/-- Version-6 meta buffer, live and encrypted. -/
def metaBufLiveEnc : List Nat :=
  metaPrefix 6 1 ++ List.replicate 8 0 ++ u32le 0 ++ u32le 1 ++ u32le 0

/-- Version-2 meta buffer: below the timestamp threshold, above the
compression threshold; structurally complete for its version. -/
def metaBufV2 : List Nat := metaPrefix 2 0 ++ u32le 0

/-- Version-3 meta buffer: timestamp and compression flag present. -/
def metaBufV3 : List Nat := metaPrefix 3 0 ++ List.replicate 8 0 ++ u32le 0

/-- The meta record metaBufV3 decodes to. -/
def metaV3 : Meta :=
  { file_version := 3, lenght_in_ms := 0, network_version := 0,
    change_list := 0, friendly_name := [], is_live := false, time_stamp := 0,
    is_compressed := false, is_encrypted := false, encryption_key := [] }

/-- A matchstats payload whose accuracy field carries the float32 nearest to
0.22 (bits 0x3E6147AE, value 14763950 * 2 ^ (-26)) and whose distance field
carries 400000. -/
def statsPayload : List Nat :=
  u32le 0 ++ [174, 71, 97, 62] ++ u32le 4 ++ u32le 3 ++ u32le 753 ++ u32le 119 ++
  u32le 0 ++ u32le 839 ++ u32le 43504 ++ u32le 2063 ++ u32le 710 ++ u32le 400000

/-- The stats record statsPayload decodes to: accuracy truncates to 21. -/
def statsRes : Stats :=
  { unknown := 0, accuracy := 21, assists := 4, eliminations := 3,
    weapon_damage := 753, other_damage := 119, revives := 0, damage_taken := 839,
    damage_structures := 43504, materials_gathered := 2063, materials_used := 710,
    total_traveled := 4 }

/-! Claims. -/

/-- A successful uint32 read advances the cursor by exactly 4 bytes. -/
theorem readU32_pos {buf : List Nat} {p v q : Nat}
    (h : readU32 buf p = .ok (v, q)) : q = p + 4 := by
  unfold readU32 readBytesAt at h
  by_cases hle : p + 4 ≤ buf.length
  · rw [if_pos hle] at h
    simp only [Except.ok.injEq, Prod.mk.injEq] at h
    omega
  · rw [if_neg hle] at h
    exact absurd h (by simp)

/-- A successful int32 read advances the cursor by exactly 4 bytes. -/
theorem readI32_pos {buf : List Nat} {p : Nat} {v : Int} {q : Nat}
    (h : readI32 buf p = .ok (v, q)) : q = p + 4 := by
  unfold readI32 readBytesAt at h
  by_cases hle : p + 4 ≤ buf.length
  · rw [if_pos hle] at h
    simp only [Except.ok.injEq, Prod.mk.injEq] at h
    omega
  · rw [if_neg hle] at h
    exact absurd h (by simp)

/-- C1: whenever a parse_chunks iteration completes (the loop continues), the
new cursor position is exactly frame_start + chunk_size - the byte offset
just past the 8-byte chunk header plus the size field - no matter which
dispatch branch ran or how many bytes it consumed. -/
theorem c1_cursor_framing_after_dispatch :
    ∀ (aes : List Nat → List Nat → List Nat) (classV : Option (Nat × Nat))
      (buf : List Nat) (st st' : LoopState),
      chunkStep aes classV buf st = .cont st' →
      ∃ sz : Int, chunkSizeAt buf st.pos = some sz ∧
        (st'.pos : Int) = (st.pos : Int) + 8 + sz := by
  intro aes cv buf st st' h
  unfold chunkStep at h
  by_cases h0 : buf.length ≤ st.pos
  · rw [if_pos h0] at h
    exact absurd h (by simp)
  rw [if_neg h0] at h
  cases hu : readU32 buf st.pos with
  | error e => simp only [hu] at h; simp at h
  | ok pr =>
    obtain ⟨ty, p1⟩ := pr
    simp only [hu] at h
    cases hi : readI32 buf p1 with
    | error e => simp only [hi] at h; simp at h
    | ok pr2 =>
      obtain ⟨sz, offset⟩ := pr2
      simp only [hi] at h
      cases hd : dispatchChunk aes cv st.sess buf ty offset with
      | error e => simp only [hd] at h; simp at h
      | ok sess1 =>
        simp only [hd] at h
        by_cases hr : ((offset : Int) + sz < 0 ∨ (buf.length : Int) < (offset : Int) + sz)
        · rw [if_pos hr] at h; exact absurd h (by simp)
        · rw [if_neg hr] at h
          simp only [StepRes.cont.injEq] at h
          have hp1 : p1 = st.pos + 4 := readU32_pos hu
          have hoff : offset = p1 + 4 := readI32_pos hi
          refine ⟨sz, ?_, ?_⟩
          · unfold chunkSizeAt
            rw [← hp1, hi]
          · have hst : st' = { sess := sess1, pos := ((offset : Int) + sz).toNat } := h.symm
            rw [hst]
            have hnn : (0 : Int) ≤ (offset : Int) + sz := by omega
            simp only []
            rw [Int.toNat_of_nonneg hnn]
            omega

/-- Witness for C1: a checkpoint chunk of size 1 inside a 9-byte buffer; the
iteration completes and the cursor lands on 0 + 8 + 1. -/
theorem c1_witness :
    ∃ sz : Int,
      chunkSizeAt [2, 0, 0, 0, 1, 0, 0, 0, 9]
          ({ sess := initSession mA, pos := 0 } : LoopState).pos = some sz ∧
      (({ sess := initSession mA, pos := 9 } : LoopState).pos : Int) =
        (({ sess := initSession mA, pos := 0 } : LoopState).pos : Int) + 8 + sz :=
  c1_cursor_framing_after_dispatch idAes none [2, 0, 0, 0, 1, 0, 0, 0, 9]
    { sess := initSession mA, pos := 0 } { sess := initSession mA, pos := 9 } (by decide)

/-- C9: decode sessions share no mutable state. The only cross-session object
the source holds is the class-level Header._version defaultdict; no statement
ever assigns it (the property and its setter write instance attributes), so a
session returns the class attribute unchanged, and decoding a buffer B - its
whole result, including the derived version pair cached from B's own branch -
is the same whether or not another replay A was decoded before it in the same
process. -/
theorem c9_sessions_independent :
    (∀ (aes : List Nat → List Nat → List Nat) (classV : Option (Nat × Nat))
      (fuel : Nat) (buf : List Nat), (decodeSessionSt aes classV fuel buf).2 = classV) ∧
    (∀ (aes : List Nat → List Nat → List Nat) (fuel : Nat) (A B : List Nat),
      runSessions aes fuel [A, B] none =
        runSessions aes fuel [A] none ++ runSessions aes fuel [B] none) :=
  ⟨fun _ _ _ _ => rfl, fun _ _ _ _ => rfl⟩

/-- C10 counterexample: the claim says an unknown-type chunk never raises.
A chunk of unknown type 7 whose size field (100) points past the end of the
buffer raises ValueError at the reseek, aborting the decode. -/
theorem c10_counterexample :
    chunkStep idAes none [7, 0, 0, 0, 100, 0, 0, 0]
      { sess := initSession mA, pos := 0 } = .fail .valueErr := by decide

/-- C10 (amended): for a chunk whose type is none of 0, 1, 2, 3, provided the
reseek target frame_start + chunk_size is within the buffer, the dispatcher
raises no error and produces no record - the session is unchanged, the cursor
is advanced to frame_start + chunk_size, and the loop continues. -/
theorem c10_unknown_chunk_skipped :
    ∀ (aes : List Nat → List Nat → List Nat) (classV : Option (Nat × Nat))
      (buf : List Nat) (sess : Session) (pos ty : Nat) (sz : Int),
      ¬ buf.length ≤ pos →
      readU32 buf pos = .ok (ty, pos + 4) →
      readI32 buf (pos + 4) = .ok (sz, pos + 8) →
      ty ≠ 0 → ty ≠ 1 → ty ≠ 2 → ty ≠ 3 →
      0 ≤ (pos : Int) + 8 + sz →
      (pos : Int) + 8 + sz ≤ (buf.length : Int) →
      chunkStep aes classV buf { sess := sess, pos := pos } =
        .cont { sess := sess, pos := ((pos : Int) + 8 + sz).toNat } := by
  intro aes cv buf sess pos ty sz h0 hu hi t0 t1 t2 t3 hge hle
  have hd : dispatchChunk aes cv sess buf ty (pos + 8) = .ok sess := by
    unfold dispatchChunk
    rw [if_neg t2, if_neg t3, if_neg t1, if_neg t0]
  have hcast : ((pos + 8 : Nat) : Int) + sz = (pos : Int) + 8 + sz := by
    push_cast
    ring
  unfold chunkStep
  rw [if_neg h0]
  simp only [hu, hi, hd]
  rw [if_neg (by rw [hcast]; omega :
    ¬ (((pos + 8 : Nat) : Int) + sz < 0 ∨ (buf.length : Int) < ((pos + 8 : Nat) : Int) + sz))]
  rw [hcast]

/-- Witness for C10: an unknown chunk type 7 with size 1 in a 9-byte buffer
is skipped, the cursor landing on 0 + 8 + 1 = 9. -/
theorem c10_witness :
    chunkStep idAes none [7, 0, 0, 0, 1, 0, 0, 0, 9]
        { sess := initSession mA, pos := 0 } =
      .cont { sess := initSession mA, pos := (((0 : Nat) : Int) + 8 + 1).toNat } :=
  c10_unknown_chunk_skipped idAes none [7, 0, 0, 0, 1, 0, 0, 0, 9] (initSession mA)
    0 7 1 (by decide) (by decide) (by decide) (by decide) (by decide) (by decide)
    (by decide) (by decide) (by decide)

/-- C2: elimination decode branch selection. The claimed order holds on the
engine < 11 side: branch '++Fortnite+Release-4.0' skips 12 bytes,
'..-4.2' skips 40, lexicographically >= '..-4.3' skips 45, '++Fortnite+Main'
skips 45, any other branch fails with UnsupportedReplayVersion, players then
decoded as bare strings; and with engine >= 11 and derived major >= 9 exactly
85 bytes are skipped and players decode as structured records. But the claim
fails - a code bug - when engine_network_version >= 11 and the branch does not
match the version pattern (e.g. '++Fortnite+Main'): Header.version then
returns the int 0 (despite its dict annotation) and the ['major'] subscript
raises TypeError, so no branch of the chain executes and the event is lost,
where the claim (and the spec, which calls the derived version "empty/zero
... never fatal") requires the 45-byte skip path. The first conjunct exhibits
the failing input; the rest verify the claimed table where the code follows
it. -/
theorem c2_elim_branch_selection :
    parseElim none (some (mkHdr 11 ("++Fortnite+Main"))) none (elimPayloadW 45) 0 0 =
      (.error .typeErr, none, 0) ∧
    parseElim none (some (mkHdr 10 ("++Fortnite+Main"))) none (elimPayloadW 45) 0 99 =
      (.ok (elimResW 99), none, 60) ∧
    parseElim none (some (mkHdr 10 ("++Fortnite+Release-4.0"))) none (elimPayloadW 12) 0 0 =
      (.ok (elimResW 0), none, 27) ∧
    parseElim none (some (mkHdr 10 ("++Fortnite+Release-4.2"))) none (elimPayloadW 40) 0 0 =
      (.ok (elimResW 0), none, 55) ∧
    parseElim none (some (mkHdr 10 ("++Fortnite+Release-4.3"))) none (elimPayloadW 45) 0 0 =
      (.ok (elimResW 0), none, 60) ∧
    parseElim none (some (mkHdr 10 ("++Fortnite+Release-5.10"))) none (elimPayloadW 45) 0 0 =
      (.ok (elimResW 0), none, 60) ∧
    parseElim none (some (mkHdr 10 ("++Fortnite+Other"))) none (elimPayloadW 45) 0 0 =
      (.error .unsupportedElim, none, 0) ∧
    parseElim none (some (mkHdr 11 ("++Fortnite+Release-9.10"))) none elimPayload85 0 0 =
      (.ok elimRes85, some (9, 10), 92) := by
  refine ⟨by decide, by decide, by decide, by decide, by decide, by decide, by decide, by decide⟩

/-- C4: the structural-invariant check of parse_meta raises InvalidContainer
exactly on the two violations - a completed (non-live) record flagged
encrypted with a zero-length key, or a live record flagged encrypted - and
passes every other record; two full meta buffers exhibiting the violations
fail with InvalidContainer. -/
theorem c4_meta_invariant_iff :
    (∀ (is_live is_encrypted : Bool) (key : List Nat),
      metaInvariantChecks is_live is_encrypted key = .error .invalidReplay ↔
        ((is_live = false ∧ is_encrypted = true ∧ key.length = 0) ∨
         (is_live = true ∧ is_encrypted = true))) ∧
    parseMeta metaBufEncNoKey 0 = .error .invalidReplay ∧
    parseMeta metaBufLiveEnc 0 = .error .invalidReplay := by
  refine ⟨?_, by decide, by decide⟩
  intro l e k
  cases l <;> cases e <;>
    by_cases hk : k.length = 0 <;> simp [metaInvariantChecks, hk]

/-- C5 counterexample: the claim says a decoded accuracy input of 0.22 yields
the stored integer 22. The decoded float32 nearest to 0.22 (wire bytes
AE 47 61 3E, exact value 14763950 * 2 ^ (-26) = 0.21999999880...) yields 21,
because int() truncates the exact product 21.99999988... toward zero; exact
0.22 is not representable in float32. The distance part is as claimed:
400000 decodes to 4. -/
theorem c5_counterexample :
    parseMatchStats statsPayload 0 = .ok (statsRes, 48) ∧
    decodeF32 [174, 71, 97, 62] = .finite 14763950 (-26) ∧
    statsRes.accuracy = 21 ∧ statsRes.total_traveled = 4 ∧ (21 : Int) ≠ 22 := by
  refine ⟨by decide, by decide, by decide, by decide, by decide⟩

/-- C3 counterexample: the claim says negative-length strings are decoded
UTF-16LE. The source calls bytes.decode('utf-16'), whose leading byte-order
mark selects the byte order: for length prefix -3 with payload FE FF 00 41
00 00, the code strips the big-endian mark and decodes to 'A' (code point
65), while UTF-16LE decoding of the same stripped bytes (the claim's words,
`specUtf16leDecode`) yields the code points [65534, 16640]. -/
theorem c3_counterexample :
    readString [253, 255, 255, 255, 254, 255, 0, 65, 0, 0] 0 = .ok ([65], 10) ∧
    specUtf16leDecode [254, 255, 0, 65] = some [65534, 16640] ∧
    ([65] : PyStr) ≠ [65534, 16640] :=
  ⟨by decide, by decide, by decide⟩

/-- C3 (amended): read_string reads a signed 32-bit length prefix n; n = 0
returns the empty string having consumed exactly 4 bytes; n < 0 reads
-n * 2 bytes, strips the trailing 2 bytes and decodes them with Python's
utf-16 codec (byte-order mark honoured, little-endian otherwise - not plain
UTF-16LE); n > 0 reads n bytes, fails with MalformedString when the final
byte is nonzero, and otherwise decodes the first n - 1 bytes as UTF-8
falling back to Latin-1, a total function, so that decode step never
raises. -/
theorem c3_read_string :
    ∀ (buf : List Nat) (p : Nat) (n : Int) (p1 : Nat),
      (readI32 buf p = .ok (0, p1) → readString buf p = .ok ([], p1) ∧ p1 = p + 4) ∧
      (readI32 buf p = .ok (n, p1) → n < 0 →
        ∀ (bs : List Nat) (p2 : Nat),
          readBytesAt buf p1 (-2 * n).toNat = .ok (bs, p2) →
          readString buf p =
            match pyUtf16Decode (bs.take ((-2 * n).toNat - 2)) with
            | some s => .ok (s, p2)
            | none => .error .unicodeErr) ∧
      (readI32 buf p = .ok (n, p1) → 0 < n →
        ∀ (bs : List Nat) (p2 : Nat),
          readBytesAt buf p1 n.toNat = .ok (bs, p2) →
          (bs.getLastD 1 ≠ 0 → readString buf p = .error .malformedString) ∧
          (bs.getLastD 1 = 0 →
            readString buf p = .ok (pyUtf8OrLatin1 (bs.take (n.toNat - 1)), p2))) := by
  intro buf p n p1
  refine ⟨?_, ?_, ?_⟩
  · intro h
    unfold readString
    simp only [h]
    exact ⟨by simp, readI32_pos h⟩
  · intro h hneg bs p2 hbs
    unfold readString
    simp only [h]
    rw [if_neg (by omega), if_pos hneg]
    simp only [hbs]
  · intro h hpos bs p2 hbs
    unfold readString
    simp only [h]
    rw [if_neg (by omega), if_neg (by omega)]
    simp only [hbs]
    constructor
    · intro hlast
      rw [if_pos hlast]
    · intro hlast
      rw [if_neg (fun hc => hc hlast)]

/-- Witness for C3: a zero-length string consumes exactly 4 bytes; a
length -2 string decodes its two UTF-16 bytes; a 3-byte string without the
null terminator fails with MalformedString while one with it decodes its
first two bytes. -/
theorem c3_witness :
    (readString [0, 0, 0, 0] 0 = .ok ([], 4) ∧ (4 : Nat) = 0 + 4) ∧
    readString [254, 255, 255, 255, 65, 0, 0, 0] 0 = .ok ([65], 8) ∧
    readString [3, 0, 0, 0, 97, 98, 99] 0 = .error .malformedString ∧
    readString [3, 0, 0, 0, 97, 98, 0] 0 = .ok ([97, 98], 7) := by
  refine ⟨(c3_read_string [0, 0, 0, 0] 0 0 4).1 (by decide), ?_, ?_, ?_⟩
  · exact ((c3_read_string [254, 255, 255, 255, 65, 0, 0, 0] 0 (-2) 4).2.1
      (by decide) (by decide) [65, 0, 0, 0] 8 (by decide)).trans (by decide)
  · exact ((c3_read_string [3, 0, 0, 0, 97, 98, 99] 0 3 4).2.2
      (by decide) (by decide) [97, 98, 99] 7 (by decide)).1 (by decide)
  · exact (((c3_read_string [3, 0, 0, 0, 97, 98, 0] 0 3 4).2.2
      (by decide) (by decide) [97, 98, 0] 7 (by decide)).2 (by decide)).trans (by decide)

/-- C5 (amended): parse_matchstats_event stores accuracy = int(accuracy *
100), the truncation toward zero of the exact product (so the float32
nearest 0.22 stores 21; exact 0.22 is not float32-representable, and decoded
values in [0.22, 0.23) store 22), and stores total_traveled =
round(t / 100000.0), Python's half-to-even rounding, with 400000 storing 4:
given the twelve field reads, the parsed record holds exactly these
transforms of the decoded values. -/
theorem c5_matchstats_transforms :
    ∀ (buf : List Nat) (p u : Nat) (f : PyFloat) (a : Int)
      (v3 v4 v5 v6 v7 v8 v9 v10 v11 t : Nat),
      readU32 buf p = .ok (u, p + 4) →
      readF32 buf (p + 4) = .ok (f, p + 8) →
      readU32 buf (p + 8) = .ok (v3, p + 12) →
      readU32 buf (p + 12) = .ok (v4, p + 16) →
      readU32 buf (p + 16) = .ok (v5, p + 20) →
      readU32 buf (p + 20) = .ok (v6, p + 24) →
      readU32 buf (p + 24) = .ok (v7, p + 28) →
      readU32 buf (p + 28) = .ok (v8, p + 32) →
      readU32 buf (p + 32) = .ok (v9, p + 36) →
      readU32 buf (p + 36) = .ok (v10, p + 40) →
      readU32 buf (p + 40) = .ok (v11, p + 44) →
      readU32 buf (p + 44) = .ok (t, p + 48) →
      pyIntTimes100 f = .ok a →
      parseMatchStats buf p =
        .ok ({ unknown := u, accuracy := a, assists := v3, eliminations := v4,
               weapon_damage := v5, other_damage := v6, revives := v7,
               damage_taken := v8, damage_structures := v9,
               materials_gathered := v10, materials_used := v11,
               total_traveled := pyRoundDiv100000 t }, p + 48) ∧
      pyRoundDiv100000 400000 = 4 := by
  intro buf p u f a v3 v4 v5 v6 v7 v8 v9 v10 v11 t
  intro h1 h2 h3 h4 h5 h6 h7 h8 h9 h10 h11 h12 ha
  constructor
  · unfold parseMatchStats
    simp only [h1, h2, h3, h4, h5, h6, h7, h8, h9, h10, h11, h12, ha,
      bind, Except.bind, pure, Except.pure]
  · decide

/-- Witness for C5: the fixture payload decodes with accuracy 21 (float32
nearest 0.22) and distance 4 (input 400000). -/
theorem c5_witness :
    parseMatchStats statsPayload 0 =
      .ok ({ unknown := 0, accuracy := 21, assists := 4, eliminations := 3,
             weapon_damage := 753, other_damage := 119, revives := 0,
             damage_taken := 839, damage_structures := 43504,
             materials_gathered := 2063, materials_used := 710,
             total_traveled := pyRoundDiv100000 400000 }, 0 + 48) ∧
    pyRoundDiv100000 400000 = 4 :=
  c5_matchstats_transforms statsPayload 0 0 (.finite 14763950 (-26)) 21
    4 3 753 119 0 839 43504 2063 710 400000
    (by decide) (by decide) (by decide) (by decide) (by decide) (by decide)
    (by decide) (by decide) (by decide) (by decide) (by decide) (by decide)
    (by decide)

/-- C6: inside parse_event, an error raised while decoding a playerElim
payload is caught (the chunk loop will continue; no elimination is appended,
only the version cache the decode may have written survives), while an error
from either statistics decode - AthenaMatchStats or AthenaMatchTeamStats,
neither of which is wrapped in a try - is not caught and propagates out of
parse_event as a fatal error. -/
theorem c6_event_error_policy :
    ∀ (aes : List Nat → List Nat → List Nat) (classV : Option (Nat × Nat))
      (s : Session) (buf : List Nat) (p : Nat) (eid g md : PyStr)
      (p1 p2 p3 p4 p5 p6 p7 st en sz : Nat) (payload : List Nat),
      readString buf p = .ok (eid, p1) →
      readString buf p1 = .ok (g, p2) →
      readString buf p2 = .ok (md, p3) →
      readU32 buf p3 = .ok (st, p4) →
      readU32 buf p4 = .ok (en, p5) →
      readU32 buf p5 = .ok (sz, p6) →
      decryptBuffer aes s.meta buf p6 sz = .ok (payload, p7) →
      ((g = strLit ("playerElim") →
        md ≠ strLit ("AthenaMatchStats") →
        md ≠ strLit ("AthenaMatchTeamStats") →
        ∀ (e : Err) (iv : Option (Nat × Nat)) (bp : Nat),
          parseElim classV s.header s.versionCache payload 0 st = (.error e, iv, bp) →
          parseEvent aes classV s buf p = .ok ({ s with versionCache := iv }, p7)) ∧
       (g ≠ strLit ("playerElim") →
        md = strLit ("AthenaMatchStats") →
        ∀ e : Err, parseMatchStats payload 0 = .error e →
          parseEvent aes classV s buf p = .error e) ∧
       (g ≠ strLit ("playerElim") →
        md = strLit ("AthenaMatchTeamStats") →
        ∀ e : Err, parseTeamStats payload 0 = .error e →
          parseEvent aes classV s buf p = .error e)) := by
  intro aes cv s buf p eid g md p1 p2 p3 p4 p5 p6 p7 st en sz payload h1 h2 h3 h4 h5 h6 h7
  refine ⟨?_, ?_, ?_⟩
  · intro hg hm1 hm2 e iv bp hel
    unfold parseEvent
    simp only [h1, h2, h3, h4, h5, h6, h7, bind, Except.bind, hg, hel, if_neg hm1, if_neg hm2]
    simp [pure, Except.pure]
  · intro hg hm e hpe
    unfold parseEvent
    simp only [h1, h2, h3, h4, h5, h6, h7, bind, Except.bind, if_neg hg, hm, hpe]
    simp [pure, Except.pure]
  · intro hg hm e hpe
    unfold parseEvent
    simp only [h1, h2, h3, h4, h5, h6, h7, bind, Except.bind, if_neg hg, hm, hpe]
    rw [if_neg (show ¬ strLit ("AthenaMatchTeamStats") = strLit ("AthenaMatchStats") by decide)]
    simp [pure, Except.pure, hpe]

/-- An event whose group is playerElim and whose elimination payload is
undecodable (the header was never parsed): envelope with empty id and
metadata, start_time 5, payload size 0. -/
def eventBufA : List Nat :=
  strEnc ("") ++ strEnc ("playerElim") ++ strEnc ("") ++ u32le 5 ++ u32le 0 ++ u32le 0

/-- An event whose metadata is AthenaMatchStats with an empty payload, which
the statistics decode cannot read. -/
def eventBufB : List Nat :=
  strEnc ("") ++ strEnc ("") ++ strEnc ("AthenaMatchStats") ++ u32le 0 ++ u32le 0 ++ u32le 0

/-- An event whose metadata is AthenaMatchTeamStats with an empty payload,
which the team-stats decode cannot read. -/
def eventBufC : List Nat :=
  strEnc ("") ++ strEnc ("") ++ strEnc ("AthenaMatchTeamStats") ++
  u32le 0 ++ u32le 0 ++ u32le 0

/-- Witness for C6: the failing elimination event decodes to a success with
no elimination appended; the failing match-stats and team-stats events each
propagate their error. -/
theorem c6_witness :
    parseEvent idAes none (initSession mA) eventBufA 0 =
      .ok ({ initSession mA with versionCache := none }, 37) ∧
    parseEvent idAes none (initSession mA) eventBufB 0 = .error .truncated ∧
    parseEvent idAes none (initSession mA) eventBufC 0 = .error .truncated := by
  refine ⟨?_, ?_, ?_⟩
  · exact (c6_event_error_policy idAes none (initSession mA) eventBufA 0
      [] (strLit ("playerElim")) [] 5 20 25 29 33 37 37 5 0 0 []
      (by decide) (by decide) (by decide) (by decide) (by decide) (by decide)
      (by decide)).1 rfl (by decide) (by decide) .typeErr none 0 (by decide)
  · exact (c6_event_error_policy idAes none (initSession mA) eventBufB 0
      [] [] (strLit ("AthenaMatchStats")) 5 10 31 35 39 43 43 0 0 0 []
      (by decide) (by decide) (by decide) (by decide) (by decide) (by decide)
      (by decide)).2.1 (by decide) rfl .truncated (by decide)
  · exact (c6_event_error_policy idAes none (initSession mA) eventBufC 0
      [] [] (strLit ("AthenaMatchTeamStats")) 5 10 35 39 43 47 47 0 0 0 []
      (by decide) (by decide) (by decide) (by decide) (by decide) (by decide)
      (by decide)).2.2 (by decide) rfl .truncated (by decide)

/-- C7: the claim says a well-formed meta record below the timestamp
threshold parses successfully with the timestamp simply absent. The reads are
indeed version-gated, but the code is buggy here: the Meta constructor
references the time_stamp (and is_compressed) locals unconditionally, so for
file_version below HISTORY_RECORDED_TIMESTAMP the unassigned local raises
UnboundLocalError and parsing fails on every such buffer - here a structurally
complete version-2 buffer. A version-3 buffer (timestamp present, below the
encryption threshold) parses fine, confirming the gating itself. -/
theorem c7_meta_conditional_fields_bug :
    parseMeta metaBufV2 0 = .error .unboundLocal ∧
    parseMeta metaBufV3 0 = .ok (metaV3, 40) := by
  refine ⟨by decide, by decide⟩

/-- If the framing chain stops within n hops, the loop returns within n + 1
iterations (dispatch errors only stop it sooner). -/
theorem loopSome_of_chain (aes : List Nat → List Nat → List Nat)
    (cv : Option (Nat × Nat)) (buf : List Nat) :
    ∀ (n : Nat) (sess : Session) (pos : Nat),
      chainTerminates buf n pos = true →
      (parseChunksLoop aes cv buf (n + 1) { sess := sess, pos := pos }).isSome := by
  intro n
  induction n with
  | zero =>
    intro sess pos hc
    unfold chainTerminates at hc
    unfold parseChunksLoop chunkStep
    by_cases h0 : buf.length ≤ pos
    · rw [if_pos h0]
      simp
    rw [if_neg h0]
    rw [if_neg h0] at hc
    cases hu : readU32 buf pos with
    | error e => simp only [hu]; simp
    | ok pr =>
      obtain ⟨ty, p1⟩ := pr
      simp only [hu] at hc ⊢
      cases hi : readI32 buf p1 with
      | error e => simp only [hi]; simp
      | ok pr2 =>
        obtain ⟨sz, offset⟩ := pr2
        simp only [hi] at hc ⊢
        by_cases hr : ((offset : Int) + sz < 0 ∨ (buf.length : Int) < (offset : Int) + sz)
        · cases hd : dispatchChunk aes cv sess buf ty offset with
          | error e => simp only [hd]; simp
          | ok sess1 => simp only [hd]; rw [if_pos hr]; simp
        · rw [if_neg hr] at hc
          simp at hc
  | succ n ih =>
    intro sess pos hc
    unfold chainTerminates at hc
    unfold parseChunksLoop chunkStep
    by_cases h0 : buf.length ≤ pos
    · rw [if_pos h0]
      simp
    rw [if_neg h0]
    rw [if_neg h0] at hc
    cases hu : readU32 buf pos with
    | error e => simp only [hu]; simp
    | ok pr =>
      obtain ⟨ty, p1⟩ := pr
      simp only [hu] at hc ⊢
      cases hi : readI32 buf p1 with
      | error e => simp only [hi]; simp
      | ok pr2 =>
        obtain ⟨sz, offset⟩ := pr2
        simp only [hi] at hc ⊢
        by_cases hr : ((offset : Int) + sz < 0 ∨ (buf.length : Int) < (offset : Int) + sz)
        · cases hd : dispatchChunk aes cv sess buf ty offset with
          | error e => simp only [hd]; simp
          | ok sess1 => simp only [hd]; rw [if_pos hr]; simp
        · rw [if_neg hr] at hc
          cases hd : dispatchChunk aes cv sess buf ty offset with
          | error e => simp only [hd]; simp
          | ok sess1 =>
            simp only [hd]
            rw [if_neg hr]
            exact ih sess1 (((offset : Int) + sz).toNat) hc

/-- A successful loop exit can only come from the while condition failing,
and a reseek never lands past the end, so the final cursor is exactly the
buffer length. -/
theorem loopOk_pos_eq (aes : List Nat → List Nat → List Nat)
    (cv : Option (Nat × Nat)) (buf : List Nat) :
    ∀ (fuel : Nat) (sess : Session) (pos : Nat) (s' : Session) (p' : Nat),
      pos ≤ buf.length →
      parseChunksLoop aes cv buf fuel { sess := sess, pos := pos } = some (.ok (s', p')) →
      p' = buf.length := by
  intro fuel
  induction fuel with
  | zero =>
    intro sess pos s' p' hle h
    simp [parseChunksLoop] at h
  | succ n ih =>
    intro sess pos s' p' hle h
    unfold parseChunksLoop chunkStep at h
    by_cases h0 : buf.length ≤ pos
    · rw [if_pos h0] at h
      simp only [Option.some.injEq, Except.ok.injEq, Prod.mk.injEq] at h
      omega
    rw [if_neg h0] at h
    cases hu : readU32 buf pos with
    | error e => simp only [hu] at h; simp at h
    | ok pr =>
      obtain ⟨ty, p1⟩ := pr
      simp only [hu] at h
      cases hi : readI32 buf p1 with
      | error e => simp only [hi] at h; simp at h
      | ok pr2 =>
        obtain ⟨sz, offset⟩ := pr2
        simp only [hi] at h
        cases hd : dispatchChunk aes cv sess buf ty offset with
        | error e => simp only [hd] at h; simp at h
        | ok sess1 =>
          simp only [hd] at h
          by_cases hr : ((offset : Int) + sz < 0 ∨ (buf.length : Int) < (offset : Int) + sz)
          · rw [if_pos hr] at h; simp at h
          · rw [if_neg hr] at h
            have hle2 : ((offset : Int) + sz).toNat ≤ buf.length := by omega
            exact ih sess1 (((offset : Int) + sz).toNat) s' p' hle2 h

/-- A dangling partial chunk header (cursor short of the end by fewer than 8
bytes) makes the next header read raise the bitstring ReadError. -/
theorem loopTruncated (aes : List Nat → List Nat → List Nat)
    (cv : Option (Nat × Nat)) (buf : List Nat) :
    ∀ (fuel : Nat) (sess : Session) (pos : Nat),
      pos < buf.length → buf.length < pos + 8 →
      parseChunksLoop aes cv buf (fuel + 1) { sess := sess, pos := pos } =
        some (.error .truncated) := by
  intro fuel sess pos hlt hsm
  unfold parseChunksLoop chunkStep
  rw [if_neg (show ¬ buf.length ≤ pos by omega)]
  by_cases h4 : pos + 4 ≤ buf.length
  · have hu : readU32 buf pos = .ok (leVal ((buf.drop pos).take 4), pos + 4) := by
      unfold readU32 readBytesAt
      rw [if_pos h4]
    have hi : readI32 buf (pos + 4) = .error .truncated := by
      unfold readI32 readBytesAt
      rw [if_neg (by omega)]
    simp only [hu, hi]
  · have hu : readU32 buf pos = .error .truncated := by
      unfold readU32 readBytesAt
      rw [if_neg (by omega)]
    simp only [hu]

/-- C8 counterexample: the claim says the chunk dispatch loop terminates for
every input buffer. A single chunk of unknown type 5 with size field -8
reseeks the cursor exactly back onto its own header: the step maps the state
to itself without exiting, so the Python loop runs forever (here: the step is
a self-loop on a non-final state, and no fuel bound is ever enough). -/
theorem c8_counterexample :
    chunkStep idAes none [5, 0, 0, 0, 248, 255, 255, 255]
        { sess := initSession mA, pos := 0 } =
      .cont { sess := initSession mA, pos := 0 } ∧
    (0 : Nat) < ([5, 0, 0, 0, 248, 255, 255, 255] : List Nat).length ∧
    parseChunksLoop idAes none [5, 0, 0, 0, 248, 255, 255, 255] 100
      { sess := initSession mA, pos := 0 } = none :=
  ⟨by decide, by decide, by decide⟩

/-- C8 (amended): the loop terminates whenever the buffer's framing chain
pos -> pos + 8 + chunk_size reaches a stop (always the case when no chunk
carries a size field below -7, and violated only by self-referential frames
like the -8 counterexample); it exits successfully exactly at end-of-buffer
(the final cursor equals the buffer length); and a dangling partial chunk
header - fewer than 8 bytes remaining - is a fatal TruncatedStream error. -/
theorem c8_loop_termination :
    (∀ (aes : List Nat → List Nat → List Nat) (classV : Option (Nat × Nat))
       (buf : List Nat) (sess : Session) (pos n : Nat),
       chainTerminates buf n pos = true →
       (parseChunksLoop aes classV buf (n + 1) { sess := sess, pos := pos }).isSome) ∧
    (∀ (aes : List Nat → List Nat → List Nat) (classV : Option (Nat × Nat))
       (buf : List Nat) (sess : Session) (pos fuel : Nat) (s' : Session) (p' : Nat),
       pos ≤ buf.length →
       parseChunksLoop aes classV buf fuel { sess := sess, pos := pos } =
         some (.ok (s', p')) →
       p' = buf.length) ∧
    (∀ (aes : List Nat → List Nat → List Nat) (classV : Option (Nat × Nat))
       (buf : List Nat) (sess : Session) (pos fuel : Nat),
       pos < buf.length → buf.length < pos + 8 →
       parseChunksLoop aes classV buf (fuel + 1) { sess := sess, pos := pos } =
         some (.error .truncated)) :=
  ⟨fun aes cv buf sess pos n hc => loopSome_of_chain aes cv buf n sess pos hc,
   fun aes cv buf sess pos fuel s' p' h1 h2 => loopOk_pos_eq aes cv buf fuel sess pos s' p' h1 h2,
   fun aes cv buf sess pos fuel h1 h2 => loopTruncated aes cv buf fuel sess pos h1 h2⟩

/-- Witness for C8: a 3-byte buffer terminates within one iteration and does
so with the TruncatedStream error; a well-formed one-chunk buffer exits with
its cursor on the buffer length. -/
theorem c8_witness :
    (parseChunksLoop idAes none [1, 2, 3] 1 { sess := initSession mA, pos := 0 }).isSome ∧
    (9 : Nat) = ([2, 0, 0, 0, 1, 0, 0, 0, 9] : List Nat).length ∧
    parseChunksLoop idAes none [1, 2, 3] 1 { sess := initSession mA, pos := 0 } =
      some (.error .truncated) := by
  refine ⟨c8_loop_termination.1 idAes none [1, 2, 3] (initSession mA) 0 0 (by decide),
    ?_,
    c8_loop_termination.2.2 idAes none [1, 2, 3] (initSession mA) 0 0 (by decide) (by decide)⟩
  exact c8_loop_termination.2.1 idAes none [2, 0, 0, 0, 1, 0, 0, 0, 9] (initSession mA) 0 2
    (initSession mA) 9 (by decide) (by decide)

end Ray
